import Mathlib

/-!
Verification of the TTL keyed registry of apitoolbox
(src/apitoolbox/registry.py and src/apitoolbox/db_registry.py),
via a shallow embedding.

Modelling choices:
* Wall-clock time is an explicit natural number passed to every operation
  that reads the clock in the source (time.time()).
* Keys are natural numbers (the source uses arbitrary hashable keys);
  the item map (a Python dict) is an association list with insert-or-replace
  preserving the position of an existing key, as a Python dict does.
* Python truthiness of an optional number (None and 0.0 are falsy) is made
  explicit by optTruthy; the source tests `if ttl:` and
  `if not self.expiration_time:`, not `is None`.
* A close callback is external code whose only registry-visible behaviour is
  the boolean it returns; its closure state is modelled by the number of
  invocations made so far (close_calls), so a callback is a function from
  that invocation count to a boolean.  This makes the number of callback
  invocations observable.
* Logging is omitted (it has no effect on registry state).
-/

namespace Apitoolbox

/-- Python truthiness of an optional number: None and 0 are falsy. -/
def optTruthy : Option Nat → Bool
  | none => false
  | some n => n != 0

/-- Insert-or-replace on an association list, keeping the position of an
existing key, as assignment into a Python dict does. -/
def dictSet {β : Type} : List (Nat × β) → Nat → β → List (Nat × β)
  | [], k, v => [(k, v)]
  | p :: rest, k, v => if p.1 = k then (k, v) :: rest else p :: dictSet rest k v

/-- Lookup on an association list, as dict.get(key) (returning None if absent). -/
def dictLookup {β : Type} : List (Nat × β) → Nat → Option β
  | [], _ => none
  | p :: rest, k => if p.1 = k then some p.2 else dictLookup rest k

/-- Removal on an association list, as dict.pop(key, None). -/
def dictPop {β : Type} : List (Nat × β) → Nat → List (Nat × β)
  | [], _ => []
  | p :: rest, k => if p.1 = k then rest else p :: dictPop rest k

/-- Embeds class RegistryItem: a value, an optional TTL, the absolute
expiration time, and the optional close callback.  close_calls is the
modelled closure state of the callback: how often it has been invoked. -/
structure RegistryItem (α : Type) where
  value : α
  ttl : Option Nat
  expiration_time : Option Nat
  close_callback : Option (Nat → Bool)
  close_calls : Nat

/-- Embeds RegistryItem.__init__ at clock value now:
expiration_time = time.time() + ttl if ttl else None. -/
def RegistryItem.init {α : Type} (now : Nat) (value : α) (ttl : Option Nat)
    (close_callback : Option (Nat → Bool)) : RegistryItem α :=
  { value := value
    ttl := ttl
    expiration_time := if optTruthy ttl then some (now + ttl.getD 0) else none
    close_callback := close_callback
    close_calls := 0 }

/-- Embeds RegistryItem.is_expired: false if expiration_time is falsy,
else time.time() > expiration_time. -/
def RegistryItem.is_expired {α : Type} (item : RegistryItem α) (now : Nat) : Bool :=
  if !optTruthy item.expiration_time then false
  else decide (now > item.expiration_time.getD 0)

/-- Embeds RegistryItem.refresh_expiry: no-op if ttl is falsy, else
expiration_time = time.time() + ttl. -/
def RegistryItem.refresh_expiry {α : Type} (item : RegistryItem α) (now : Nat) :
    RegistryItem α :=
  if !optTruthy item.ttl then item
  else { item with expiration_time := some (now + item.ttl.getD 0) }

/-- Embeds RegistryItem.close: True if there is no callback, else the
callback result; one invocation advances the callback closure state. -/
def RegistryItem.close {α : Type} (item : RegistryItem α) : Bool × RegistryItem α :=
  match item.close_callback with
  | none => (true, item)
  | some f => (f item.close_calls, { item with close_calls := item.close_calls + 1 })

/-- Embeds the RemoveItemStrategyBase hierarchy: CloseItemOnRemoveStrategy,
RemoveItemStrategy, and CompositeRemoveItemStrategy with its stage list and
break_on_failure flag. -/
inductive Strategy where
  | closeItem : Strategy
  | removeItem : Strategy
  | composite : List Strategy → Bool → Strategy

/-- Embeds class Registry: the item map, the refresh-on-get flag, the
optional cleanup interval, and the removal strategy. -/
structure Registry (α : Type) where
  items : List (Nat × RegistryItem α)
  refresh_on_get : Bool
  cleanup_interval : Option Nat
  remove_item_strategy : Strategy

/-- Embeds the default strategy built in Registry.__init__:
CompositeRemoveItemStrategy([CloseItemOnRemoveStrategy, RemoveItemStrategy],
break_on_failure=True). -/
def defaultStrategy : Strategy :=
  Strategy.composite [Strategy.closeItem, Strategy.removeItem] true

/-- Embeds Registry.__init__ (the cleanup thread itself is modelled
separately; see Registry.cleanup_task_guard and Registry.cleanup_task_run). -/
def Registry.init {α : Type} (cleanup_interval_in_sec : Option Nat)
    (refresh_item_ttl_on_get : Bool) (remove_item_strategy : Option Strategy) :
    Registry α :=
  { items := []
    refresh_on_get := refresh_item_ttl_on_get
    cleanup_interval := cleanup_interval_in_sec
    remove_item_strategy := remove_item_strategy.getD defaultStrategy }

/-- Embeds Registry.get_item: self._items.get(key). -/
def Registry.get_item {α : Type} (reg : Registry α) (key : Nat) :
    Option (RegistryItem α) :=
  dictLookup reg.items key

/-- Embeds Registry._remove_item: self._items.pop(key, None). -/
def Registry.remove_item {α : Type} (reg : Registry α) (key : Nat) : Registry α :=
  { reg with items := dictPop reg.items key }

mutual

/-- Embeds the remove methods of the three strategies.  Note that
CloseItemOnRemoveStrategy.remove invokes item.close() twice (once for
is_closed_successfully, once in the logging if) and returns the first
invocation result. -/
def Strategy.remove {α : Type} : Strategy → Registry α → Nat → Bool × Registry α
  | Strategy.closeItem, reg, key =>
    match reg.get_item key with
    | none => (false, reg)
    | some item =>
      let c1 := item.close
      let c2 := c1.2.close
      (c1.1, { reg with items := dictSet reg.items key c2.2 })
  | Strategy.removeItem, reg, key =>
    match reg.get_item key with
    | none => (false, reg)
    | some _ => (true, reg.remove_item key)
  | Strategy.composite strategies break_on_failure, reg, key =>
    Strategy.removeList strategies break_on_failure reg key

/-- Embeds the loop body of CompositeRemoveItemStrategy.remove: run each
stage; return False early only when a stage fails and break_on_failure is
set; after the loop return True. -/
def Strategy.removeList {α : Type} :
    List Strategy → Bool → Registry α → Nat → Bool × Registry α
  | [], _, reg, _ => (true, reg)
  | s :: rest, break_on_failure, reg, key =>
    let r := Strategy.remove s reg key
    if !r.1 && break_on_failure then (false, r.2)
    else Strategy.removeList rest break_on_failure r.2 key

end

/-- Embeds Registry.remove: apply the configured strategy, discarding its
boolean result. -/
def Registry.remove {α : Type} (reg : Registry α) (key : Nat) : Registry α :=
  (Strategy.remove reg.remove_item_strategy reg key).2

/-- Embeds Registry.set at clock value now: unconditionally install a fresh
RegistryItem (the TTL-without-cleanup-interval warning is logging only). -/
def Registry.set {α : Type} (reg : Registry α) (now : Nat) (key : Nat) (value : α)
    (ttl : Option Nat) (close_callback : Option (Nat → Bool)) : Registry α :=
  { reg with items := dictSet reg.items key (RegistryItem.init now value ttl close_callback) }

/-- Embeds Registry.get at clock value now.  The local variable item of the
source aliases the map entry, so after a removal attempt that leaves the
entry present, the entry read back from the map is the one refreshed and
returned. -/
def Registry.get {α : Type} (reg : Registry α) (now : Nat) (key : Nat) :
    Option α × Registry α :=
  match reg.get_item key with
  | none => (none, reg)
  | some item =>
    if item.is_expired now then
      let reg1 := reg.remove key
      match reg1.get_item key with
      | none => (none, reg1)
      | some item1 =>
        if reg1.refresh_on_get then
          (some item1.value,
            { reg1 with items := dictSet reg1.items key (item1.refresh_expiry now) })
        else (some item1.value, reg1)
    else
      if reg.refresh_on_get then
        (some item.value,
          { reg with items := dictSet reg.items key (item.refresh_expiry now) })
      else (some item.value, reg)

/-- Embeds Registry.copy_to at clock value now: re-insert every entry of
self into other via other.set, with the original ttl and close callback.
The pair returned is (self after the call, other after the call); the loop
body only ever writes to other. -/
def Registry.copy_to {α : Type} (reg : Registry α) (other : Registry α) (now : Nat) :
    Registry α × Registry α :=
  (reg, reg.items.foldl
    (fun acc p => acc.set now p.1 p.2.value p.2.ttl p.2.close_callback) other)

/-- Embeds Registry.__len__. -/
def Registry.len {α : Type} (reg : Registry α) : Nat := reg.items.length

/-- Embeds Registry._cleanup at clock value now: collect the keys of all
expired items, then remove each. -/
def Registry.cleanup {α : Type} (reg : Registry α) (now : Nat) : Registry α :=
  let expired_keys := (reg.items.filter (fun p => p.2.is_expired now)).map Prod.fst
  expired_keys.foldl (fun r k => r.remove k) reg

/-- Embeds the loop guard of Registry._cleanup_task: the loop is
`while True`, and the Registry state contains no stop flag or stop event,
so the guard does not depend on the registry at all. -/
def Registry.cleanup_task_guard {α : Type} (_reg : Registry α) : Bool := true

/-- Embeds n wake-ups of Registry._cleanup_task: each one sleeps, then runs
_cleanup at the wake-up time. -/
def Registry.cleanup_task_run {α : Type} (reg : Registry α) (wake_times : List Nat) :
    Registry α :=
  wake_times.foldl (fun r t => r.cleanup t) reg

namespace DbRegistry

/-- Embeds the part of a sqlalchemy Engine visible to db_registry: its url
(already a registry key candidate) and, for the close callback, the pool
checkedout counter; none models a pool without a checkedout attribute
(the hasattr test in the source). -/
structure Engine where
  url : Nat
  pool_checkedout : Option Nat

/-- Embeds the close callback lambda installed by db_registry.register:
succeed exactly when the pool has no checkedout attribute or reports zero
outstanding checkouts (in which case the engine is disposed and the chain
ends in `dispose() or True`). -/
def engine_close_callback (engine : Engine) : Nat → Bool :=
  fun _ =>
    match engine.pool_checkedout with
    | none => true
    | some n => n == 0

/-- Embeds db_registry.register on the string path: construct models
utils.create_engine (none models the constructor raising, in which case no
registry mutation has happened yet), make_url models sqlalchemy URL
normalization, and on success the engine is stored under the normalized key
with the checkout-guarded close callback. -/
def register (make_url : Nat → Nat) (construct : Nat → Option Engine)
    (registry_item_ttl : Option Nat) (now : Nat) (st : Registry Engine)
    (bind : Nat) : Except Unit Engine × Registry Engine :=
  match construct bind with
  | none => (Except.error (), st)
  | some engine =>
    let registry_key := make_url engine.url
    (Except.ok engine,
      st.set now registry_key engine registry_item_ttl
        (some (engine_close_callback engine)))

/-- Embeds db_registry.get: a plain Registry.get on the active registry. -/
def dbGet (now : Nat) (st : Registry Engine) (url : Nat) :
    Option Engine × Registry Engine :=
  st.get now url

/-- Embeds db_registry.get_or_create: normalize the url when truthy
(0 models a falsy url string, left as is), try get, register on a miss. -/
def get_or_create (make_url : Nat → Nat) (construct : Nat → Option Engine)
    (registry_item_ttl : Option Nat) (now : Nat) (st : Registry Engine)
    (url : Nat) : Except Unit Engine × Registry Engine :=
  let url1 := if url != 0 then make_url url else url
  match dbGet now st url1 with
  | (some existing_engine, st1) => (Except.ok existing_engine, st1)
  | (none, st1) => register make_url construct registry_item_ttl now st1 url1

end DbRegistry

/-! Helper lemmas about the association-list dictionary. -/

theorem dictLookup_dictSet_self {β : Type} (l : List (Nat × β)) (k : Nat) (v : β) :
    dictLookup (dictSet l k v) k = some v := by
  induction l with
  | nil => simp [dictSet, dictLookup]
  | cons p rest ih =>
    by_cases h : p.1 = k
    · simp [dictSet, h, dictLookup]
    · simp [dictSet, h, dictLookup, ih]

theorem dictLookup_dictSet_ne {β : Type} (l : List (Nat × β)) (k k2 : Nat) (v : β)
    (h : k2 ≠ k) : dictLookup (dictSet l k v) k2 = dictLookup l k2 := by
  induction l with
  | nil => simp [dictSet, dictLookup, Ne.symm h]
  | cons p rest ih =>
    by_cases hp : p.1 = k
    · simp [dictSet, hp, dictLookup, Ne.symm h]
    · by_cases hp2 : p.1 = k2
      · simp [dictSet, hp, dictLookup, hp2, h]
      · simp [dictSet, hp, dictLookup, hp2, ih]

theorem dictSet_length_of_mem {β : Type} (l : List (Nat × β)) (k : Nat) (v w : β)
    (h : dictLookup l k = some w) : (dictSet l k v).length = l.length := by
  induction l with
  | nil => simp [dictLookup] at h
  | cons p rest ih =>
    by_cases hp : p.1 = k
    · simp [dictSet, hp]
    · simp [dictLookup, hp] at h
      simp [dictSet, hp, ih h]

/-! Helper lemmas about Registry.set, Registry.get and RegistryItem. -/

theorem Registry.get_item_set_self {α : Type} (reg : Registry α) (now k : Nat)
    (v : α) (ttl : Option Nat) (cb : Option (Nat → Bool)) :
    (reg.set now k v ttl cb).get_item k = some (RegistryItem.init now v ttl cb) := by
  simp [Registry.set, Registry.get_item, dictLookup_dictSet_self]

theorem Registry.get_item_set_ne {α : Type} (reg : Registry α) (now k k2 : Nat)
    (v : α) (ttl : Option Nat) (cb : Option (Nat → Bool)) (h : k2 ≠ k) :
    (reg.set now k v ttl cb).get_item k2 = reg.get_item k2 := by
  simp [Registry.set, Registry.get_item, dictLookup_dictSet_ne _ _ _ _ h]

theorem RegistryItem.init_not_expired {α : Type} (now : Nat) (v : α)
    (ttl : Option Nat) (cb : Option (Nat → Bool)) :
    (RegistryItem.init now v ttl cb).is_expired now = false := by
  cases ttl with
  | none => simp [RegistryItem.init, RegistryItem.is_expired, optTruthy]
  | some t =>
    by_cases h : t = 0
    · simp [RegistryItem.init, RegistryItem.is_expired, optTruthy, h]
    · simp [RegistryItem.init, RegistryItem.is_expired, optTruthy, h]

theorem Registry.get_fst_of_not_expired {α : Type} (reg : Registry α) (now k : Nat)
    (item : RegistryItem α) (hit : reg.get_item k = some item)
    (hexp : item.is_expired now = false) :
    (reg.get now k).1 = some item.value := by
  cases h : reg.refresh_on_get <;> simp [Registry.get, hit, hexp, h]

theorem optTruthy_eq_false_iff (o : Option Nat) :
    optTruthy o = false ↔ o = none ∨ o = some 0 := by
  cases o with
  | none => simp [optTruthy]
  | some n => simp [optTruthy]

theorem RegistryItem.refresh_ttl {α : Type} (item : RegistryItem α) (t : Nat) :
    (item.refresh_expiry t).ttl = item.ttl := by
  by_cases h : optTruthy item.ttl <;> simp [RegistryItem.refresh_expiry, h]

theorem foldl_refresh_expiration {α : Type} (times : List Nat) (item : RegistryItem α)
    (h : item.expiration_time = none ↔ optTruthy item.ttl = false) :
    ((times.foldl (fun a t => a.refresh_expiry t) item).expiration_time = none) ↔
      optTruthy item.ttl = false := by
  induction times generalizing item with
  | nil => simpa using h
  | cons t rest ih =>
    have step : (item.refresh_expiry t).expiration_time = none ↔
        optTruthy (item.refresh_expiry t).ttl = false := by
      by_cases ht : optTruthy item.ttl
      · simp [RegistryItem.refresh_expiry, ht]
      · simpa [RegistryItem.refresh_expiry, ht] using h
    have ih2 := ih (item.refresh_expiry t) step
    simpa [RegistryItem.refresh_ttl] using ih2

/-- Claim C2: for every key and value, set with no TTL followed by get on the
same registry returns the value (here for any later clock value, since an
item without TTL never expires). -/
theorem set_then_get_returns_value {α : Type} (reg : Registry α) (now now2 k : Nat)
    (v : α) (cb : Option (Nat → Bool)) :
    ((reg.set now k v none cb).get now2 k).1 = some v := by
  have h1 := Registry.get_item_set_self reg now k v none cb
  have h2 : (RegistryItem.init now v none cb).is_expired now2 = false := by
    simp [RegistryItem.init, RegistryItem.is_expired, optTruthy]
  simpa [RegistryItem.init] using Registry.get_fst_of_not_expired _ now2 k _ h1 h2

/-- Registry holding one item whose close callback always reports failure,
with the default removal strategy. -/
def c3Reg : Registry Nat :=
  { items := [(0, { value := 7, ttl := none, expiration_time := none,
                    close_callback := some (fun _ => false), close_calls := 0 })]
    refresh_on_get := false
    cleanup_interval := none
    remove_item_strategy := defaultStrategy }

/-- Claim C3, counterexample: a composite with break_on_failure = false whose
single stage (close) returns false nevertheless reports overall success,
because the source's loop only ever returns False when break_on_failure is
set, and otherwise falls through to `return True`. -/
theorem composite_no_break_counterexample :
    ((Strategy.remove Strategy.closeItem c3Reg 0).1 = false) ∧
    ((Strategy.remove (Strategy.composite [Strategy.closeItem] false) c3Reg 0).1 = true) :=
  ⟨rfl, rfl⟩

theorem Strategy.removeList_no_break {α : Type} (l : List Strategy)
    (reg : Registry α) (key : Nat) :
    Strategy.removeList l false reg key =
      (true, l.foldl (fun r s => (Strategy.remove s r key).2) reg) := by
  induction l generalizing reg with
  | nil => simp [Strategy.removeList]
  | cons s rest ih => simp [Strategy.removeList, ih]

/-- Claim C3, amended: a composite removal strategy with break_on_failure =
false runs every stage in order, and returns true regardless of the
individual stage results. -/
theorem composite_no_break_always_true {α : Type} (strategies : List Strategy)
    (reg : Registry α) (key : Nat) :
    Strategy.remove (Strategy.composite strategies false) reg key =
      (true, strategies.foldl (fun r s => (Strategy.remove s r key).2) reg) := by
  simpa [Strategy.remove] using Strategy.removeList_no_break strategies reg key

/-- Registry holding one item whose close callback always reports success. -/
def c4Reg : Registry Nat :=
  { items := [(0, { value := 7, ttl := none, expiration_time := none,
                    close_callback := some (fun _ => true), close_calls := 0 })]
    refresh_on_get := false
    cleanup_interval := none
    remove_item_strategy := defaultStrategy }

/-- Claim C4: on an absent key the close-only strategy returns false without
touching the registry, and on a present key it returns the first close
result; but it invokes the close callback twice, not once: after the call
the retained item records two callback invocations, because the source
computes is_closed_successfully = item.close() and then calls item.close()
again in the logging conditional. -/
theorem close_strategy_invokes_close_twice :
    (((Strategy.remove Strategy.closeItem c4Reg 0).2.get_item 0).map
        RegistryItem.close_calls = some 2) ∧
    ((Strategy.remove Strategy.closeItem c4Reg 0).1 = true) ∧
    (Strategy.remove Strategy.closeItem c4Reg 1 = (false, c4Reg)) :=
  ⟨rfl, rfl, rfl⟩

/-- Claim C5: the sweep loop of Registry._cleanup_task is `while True`; its
guard is independent of the registry state, which holds no stop flag, so
after any number of sweep wake-ups the loop guard still holds and the loop
never exits. -/
theorem cleanup_task_guard_always_true {α : Type} (reg : Registry α)
    (wake_times : List Nat) :
    Registry.cleanup_task_guard (reg.cleanup_task_run wake_times) = true := rfl

/-- Claim C7, counterexample: an item constructed with ttl = 0 (a falsy but
non-None TTL) has expiration_time = None while ttl is not None, refuting
the claimed invariant that expiration_time is none iff ttl is none. -/
theorem ttl_zero_expiration_counterexample :
    ¬(((RegistryItem.init 5 (0 : Nat) (some 0) none).expiration_time = none) ↔
      ((RegistryItem.init 5 (0 : Nat) (some 0) none).ttl = none)) := by
  decide

/-- Claim C7, amended: at construction and after any sequence of
refresh_expiry calls, expiration_time is none if and only if ttl is none or
ttl is zero (the source tests Python truthiness of ttl, not `is None`). -/
theorem expiration_none_iff_ttl_falsy {α : Type} (now : Nat) (v : α)
    (ttl : Option Nat) (cb : Option (Nat → Bool)) (times : List Nat) :
    ((times.foldl (fun a t => a.refresh_expiry t)
        (RegistryItem.init now v ttl cb)).expiration_time = none) ↔
      (ttl = none ∨ ttl = some 0) := by
  have hinit : (RegistryItem.init now v ttl cb).expiration_time = none ↔
      optTruthy (RegistryItem.init now v ttl cb).ttl = false := by
    by_cases h : optTruthy ttl <;> simp [RegistryItem.init, h]
  have hmain := foldl_refresh_expiration times (RegistryItem.init now v ttl cb) hinit
  rw [hmain]
  simpa [RegistryItem.init] using optTruthy_eq_false_iff ttl

/-- Claim C1: with the default removal strategy, when the item's close
callback reports failure at the point of the removal attempt, the map
entry is not deleted: it is still found after remove, len is unchanged,
and get still returns the stored value (at any clock value, in particular
past expiry) while leaving the entry present and counted. -/
theorem close_failure_retains_entry {α : Type} (reg : Registry α) (now k : Nat)
    (item : RegistryItem α) (f : Nat → Bool)
    (hstrat : reg.remove_item_strategy = defaultStrategy)
    (hit : reg.get_item k = some item)
    (hcb : item.close_callback = some f)
    (hfail : f item.close_calls = false) :
    (((reg.remove k).get_item k).isSome = true) ∧
    ((reg.remove k).len = reg.len) ∧
    ((reg.get now k).1 = some item.value) ∧
    ((((reg.get now k).2).get_item k).isSome = true) ∧
    (((reg.get now k).2).len = reg.len) := by
  have hlk : dictLookup reg.items k = some item := by
    simpa [Registry.get_item] using hit
  have hclose1 : item.close = (false, { item with close_calls := item.close_calls + 1 }) := by
    simp [RegistryItem.close, hcb, hfail]
  have hclose2 : RegistryItem.close { item with close_calls := item.close_calls + 1 } =
      (f (item.close_calls + 1), { item with close_calls := item.close_calls + 1 + 1 }) := by
    simp [RegistryItem.close, hcb]
  have hrem : reg.remove k = { reg with items := dictSet reg.items k ({ item with close_calls := item.close_calls + 1 + 1 }) } := by
    simp [Registry.remove, hstrat, defaultStrategy, Strategy.remove, Strategy.removeList,
      hit, hclose1, hclose2]
  have hlen3 : ∀ x : RegistryItem α, (dictSet reg.items k x).length = reg.items.length :=
    fun x => dictSet_length_of_mem reg.items k x item hlk
  have hlk2 : dictLookup (dictSet reg.items k
      ({ item with close_calls := item.close_calls + 1 + 1 })) k =
      some ({ item with close_calls := item.close_calls + 1 + 1 }) :=
    dictLookup_dictSet_self reg.items k _
  have hlen2 : ∀ x : RegistryItem α,
      (dictSet (dictSet reg.items k ({ item with close_calls := item.close_calls + 1 + 1 })) k x).length
        = reg.items.length :=
    fun x => (dictSet_length_of_mem _ k x _ hlk2).trans (hlen3 _)
  have h1 : (reg.remove k).get_item k =
      some ({ item with close_calls := item.close_calls + 1 + 1 }) := by
    rw [hrem]; simp [Registry.get_item, dictLookup_dictSet_self]
  have h2 : (reg.remove k).len = reg.len := by
    rw [hrem]; simpa [Registry.len] using hlen3 _
  have hget : ((reg.get now k).1 = some item.value) ∧
      ((((reg.get now k).2).get_item k).isSome = true) ∧
      (((reg.get now k).2).len = reg.len) := by
    by_cases hexp : item.is_expired now
    · cases hrf : reg.refresh_on_get
      · refine ⟨?_, ?_, ?_⟩ <;>
          simp [Registry.get, hit, hexp, hrem, hrf, Registry.get_item, hlk,
            dictLookup_dictSet_self, Registry.len, hlen3, hlen2]
      · refine ⟨?_, ?_, ?_⟩ <;>
          simp [Registry.get, hit, hexp, hrem, hrf, Registry.get_item, hlk,
            dictLookup_dictSet_self, Registry.len, hlen3, hlen2]
    · cases hrf : reg.refresh_on_get
      · refine ⟨?_, ?_, ?_⟩ <;>
          simp [Registry.get, hit, hexp, hrf, Registry.get_item, hlk,
            dictLookup_dictSet_self, Registry.len, hlen3]
      · refine ⟨?_, ?_, ?_⟩ <;>
          simp [Registry.get, hit, hexp, hrf, Registry.get_item, hlk,
            dictLookup_dictSet_self, Registry.len, hlen3]
  exact ⟨by rw [h1]; rfl, h2, hget.1, hget.2.1, hget.2.2⟩

/-- Item whose close callback always reports failure, already past its
expiration time at clock value 5. -/
def c1Item : RegistryItem Nat :=
  { value := 7, ttl := some 1, expiration_time := some 1,
    close_callback := some (fun _ => false), close_calls := 0 }

/-- Registry with the default removal strategy holding c1Item under key 0. -/
def c1Reg : Registry Nat :=
  { items := [(0, c1Item)]
    refresh_on_get := false
    cleanup_interval := none
    remove_item_strategy := defaultStrategy }

/-- Witness for claim C1 at a concrete registry, key and clock value. -/
theorem close_failure_retains_entry_witness :
    (c1Reg.remove_item_strategy = defaultStrategy) ∧
    (c1Reg.get_item 0 = some c1Item) ∧
    (c1Item.close_callback = some (fun _ => false)) ∧
    ((fun _ : Nat => false) c1Item.close_calls = false) ∧
    (((c1Reg.remove 0).get_item 0).isSome = true) ∧
    ((c1Reg.remove 0).len = c1Reg.len) ∧
    ((c1Reg.get 5 0).1 = some c1Item.value) ∧
    ((((c1Reg.get 5 0).2).get_item 0).isSome = true) ∧
    (((c1Reg.get 5 0).2).len = c1Reg.len) := by
  have h := close_failure_retains_entry c1Reg 5 0 c1Item (fun _ => false) rfl rfl rfl rfl
  exact ⟨rfl, rfl, rfl, rfl, h.1, h.2.1, h.2.2.1, h.2.2.2.1, h.2.2.2.2⟩

/-- Claim C8: set installs a fresh item at the key (with zero callback
invocations recorded, i.e. without invoking the old entry's close callback
or the removal strategy), leaves every other key untouched, and afterwards
get on the key returns the new value, whatever was there before. -/
theorem set_overwrites_without_removal {α : Type} (reg : Registry α)
    (now k k2 : Nat) (v : α) (ttl : Option Nat) (cb : Option (Nat → Bool))
    (hk : k2 ≠ k) :
    ((reg.set now k v ttl cb).get_item k = some (RegistryItem.init now v ttl cb)) ∧
    ((reg.set now k v ttl cb).get_item k2 = reg.get_item k2) ∧
    (((reg.set now k v ttl cb).get now k).1 = some v) ∧
    ((RegistryItem.init now v ttl cb).close_calls = 0) := by
  refine ⟨Registry.get_item_set_self reg now k v ttl cb,
    Registry.get_item_set_ne reg now k k2 v ttl cb hk, ?_, rfl⟩
  have h1 := Registry.get_item_set_self reg now k v ttl cb
  have h2 := RegistryItem.init_not_expired now v ttl cb
  simpa [RegistryItem.init] using
    Registry.get_fst_of_not_expired (reg.set now k v ttl cb) now k _ h1 h2

/-- Registry with a live entry at key 0, used to witness silent overwrite. -/
def c8Reg : Registry Nat :=
  { items := [(0, { value := 1, ttl := none, expiration_time := none,
                    close_callback := some (fun _ => false), close_calls := 0 })]
    refresh_on_get := false
    cleanup_interval := none
    remove_item_strategy := defaultStrategy }

/-- Witness for claim C8 at a concrete registry with a pre-existing entry. -/
theorem set_overwrites_without_removal_witness :
    ((1 : Nat) ≠ 0) ∧
    (((c8Reg.set 5 0 (7 : Nat) (some 3) none).get_item 0 =
        some (RegistryItem.init 5 7 (some 3) none)) ∧
     ((c8Reg.set 5 0 (7 : Nat) (some 3) none).get_item 1 = c8Reg.get_item 1) ∧
     (((c8Reg.set 5 0 (7 : Nat) (some 3) none).get 5 0).1 = some 7) ∧
     ((RegistryItem.init 5 (7 : Nat) (some 3) none).close_calls = 0)) :=
  ⟨by decide, set_overwrites_without_removal c8Reg 5 0 1 7 (some 3) none (by decide)⟩

theorem foldl_set_get_item_nmem {α : Type} (now k : Nat) :
    ∀ (l : List (Nat × RegistryItem α)) (other : Registry α),
      k ∉ l.map Prod.fst →
      (l.foldl (fun acc p => acc.set now p.1 p.2.value p.2.ttl p.2.close_callback)
          other).get_item k = other.get_item k := by
  intro l
  induction l with
  | nil => intro other _; simp
  | cons p rest ih =>
    intro other hk
    simp only [List.map_cons, List.mem_cons] at hk
    push_neg at hk
    rw [List.foldl_cons, ih _ hk.2]
    exact Registry.get_item_set_ne other now p.1 k p.2.value p.2.ttl p.2.close_callback hk.1

theorem foldl_set_get_item_mem {α : Type} (now k : Nat) (item : RegistryItem α) :
    ∀ (l : List (Nat × RegistryItem α)) (other : Registry α),
      (l.map Prod.fst).Nodup → dictLookup l k = some item →
      (l.foldl (fun acc p => acc.set now p.1 p.2.value p.2.ttl p.2.close_callback)
          other).get_item k =
        some (RegistryItem.init now item.value item.ttl item.close_callback) := by
  intro l
  induction l with
  | nil => intro other _ hit; simp [dictLookup] at hit
  | cons p rest ih =>
    intro other hnd hit
    rw [List.map_cons, List.nodup_cons] at hnd
    rw [List.foldl_cons]
    by_cases hp : p.1 = k
    · subst hp
      have hi : item = p.2 := by
        have := hit
        simp [dictLookup] at this
        exact this.symm
      subst hi
      rw [foldl_set_get_item_nmem now p.1 rest _ hnd.1]
      exact Registry.get_item_set_self other now p.1 p.2.value p.2.ttl p.2.close_callback
    · have hit2 : dictLookup rest k = some item := by
        simpa [dictLookup, hp] using hit
      exact ih (other.set now p.1 p.2.value p.2.ttl p.2.close_callback) hnd.2 hit2

/-- Claim C6: copy_to inserts into the destination every key present in the
source, each with the same value, the same original ttl and the same close
callback, as a fresh item whose expiration clock starts from the time of
the copy (RegistryItem.init now ...), and the call leaves the source
registry itself unmodified. -/
theorem copy_to_copies_entries {α : Type} (src other : Registry α) (now k : Nat)
    (item : RegistryItem α)
    (hnd : (src.items.map Prod.fst).Nodup)
    (hit : src.get_item k = some item) :
    ((src.copy_to other now).2.get_item k =
      some (RegistryItem.init now item.value item.ttl item.close_callback)) ∧
    ((src.copy_to other now).1 = src) := by
  refine ⟨?_, rfl⟩
  exact foldl_set_get_item_mem now k item src.items other hnd
    (by simpa [Registry.get_item] using hit)

/-- Source registry with one entry, used to witness the copy. -/
def c6Src : Registry Nat :=
  { items := [(3, { value := 9, ttl := some 2, expiration_time := some 12,
                    close_callback := none, close_calls := 0 })]
    refresh_on_get := false
    cleanup_interval := some 1
    remove_item_strategy := defaultStrategy }

/-- Destination registry for the copy witness. -/
def c6Dst : Registry Nat := Registry.init none true none

/-- Witness for claim C6 at a concrete source and destination. -/
theorem copy_to_copies_entries_witness :
    ((c6Src.items.map Prod.fst).Nodup) ∧
    ((c6Src.copy_to c6Dst 20).2.get_item 3 =
      some (RegistryItem.init 20 9 (some 2) none)) ∧
    ((c6Src.copy_to c6Dst 20).1 = c6Src) := by
  have h := copy_to_copies_entries c6Src c6Dst 20 3
    { value := 9, ttl := some 2, expiration_time := some 12,
      close_callback := none, close_calls := 0 }
    (by simp [c6Src]) rfl
  exact ⟨by simp [c6Src], h.1, h.2⟩

/-- Claim C9: when the resource constructor raises (modelled by construct
returning none), register reports the error and leaves the registry state
exactly as it was, and so does get_or_create on a genuine cache miss. -/
theorem register_failure_leaves_registry_unchanged
    (make_url : Nat → Nat) (construct : Nat → Option DbRegistry.Engine)
    (registry_item_ttl : Option Nat) (now : Nat) (st : Registry DbRegistry.Engine)
    (url bind : Nat)
    (hraise_bind : construct bind = none)
    (hmiss : st.get_item (if url != 0 then make_url url else url) = none)
    (hraise : construct (if url != 0 then make_url url else url) = none) :
    (DbRegistry.register make_url construct registry_item_ttl now st bind =
      (Except.error (), st)) ∧
    (DbRegistry.get_or_create make_url construct registry_item_ttl now st url =
      (Except.error (), st)) := by
  constructor
  · simp [DbRegistry.register, hraise_bind]
  · have hmiss2 : st.get_item (if url = 0 then url else make_url url) = none := by
      by_cases h0 : url = 0 <;> simpa [h0] using hmiss
    have hraise2 : construct (if url = 0 then url else make_url url) = none := by
      by_cases h0 : url = 0 <;> simpa [h0] using hraise
    simp [DbRegistry.get_or_create, DbRegistry.dbGet, Registry.get, hmiss2,
      DbRegistry.register, hraise2]

/-- Empty engine registry, used to witness constructor failure. -/
def c9St : Registry DbRegistry.Engine := Registry.init none false none

/-- Witness for claim C9 with a constructor that always fails. -/
theorem register_failure_witness :
    ((fun _ : Nat => (none : Option DbRegistry.Engine)) 1 = none) ∧
    (c9St.get_item (if (1 : Nat) != 0 then (fun u => u) 1 else 1) = none) ∧
    (DbRegistry.register (fun u => u) (fun _ => none) none 7 c9St 1 =
      (Except.error (), c9St)) ∧
    (DbRegistry.get_or_create (fun u => u) (fun _ => none) none 7 c9St 1 =
      (Except.error (), c9St)) := by
  have h := register_failure_leaves_registry_unchanged (fun u => u) (fun _ => none)
    none 7 c9St 1 1 rfl rfl rfl
  exact ⟨rfl, rfl, h.1, h.2⟩

mutual

theorem Strategy.remove_refresh_on_get {α : Type} (s : Strategy) (reg : Registry α)
    (k : Nat) : ((Strategy.remove s reg k).2).refresh_on_get = reg.refresh_on_get := by
  cases s with
  | closeItem =>
    cases h : reg.get_item k with
    | none => simp [Strategy.remove, h]
    | some item => simp [Strategy.remove, h]
  | removeItem =>
    cases h : reg.get_item k with
    | none => simp [Strategy.remove, h]
    | some item => simp [Strategy.remove, h, Registry.remove_item]
  | composite l b =>
    have : Strategy.remove (Strategy.composite l b) reg k =
        Strategy.removeList l b reg k := rfl
    rw [this]
    exact Strategy.removeList_refresh_on_get l b reg k

theorem Strategy.removeList_refresh_on_get {α : Type} (l : List Strategy) (b : Bool)
    (reg : Registry α) (k : Nat) :
    ((Strategy.removeList l b reg k).2).refresh_on_get = reg.refresh_on_get := by
  cases l with
  | nil => simp [Strategy.removeList]
  | cons s rest =>
    by_cases hc : (!(Strategy.remove s reg k).1 && b) = true
    · simp [Strategy.removeList, hc]
      exact Strategy.remove_refresh_on_get s reg k
    · simp [Strategy.removeList, hc]
      exact (Strategy.removeList_refresh_on_get rest b _ k).trans
        (Strategy.remove_refresh_on_get s reg k)

end

/-- Claim C10: with refresh_on_get = true, when get finds an expired item
whose removal attempt leaves an entry in the map, get returns its value and
refreshes its expiry: the stored item becomes its refresh_expiry at the
current clock, whose expiration_time is now + ttl, and which is no longer
expired at that clock. -/
theorem get_refreshes_retained_expired_item {α : Type} (reg : Registry α)
    (now k : Nat) (item item1 : RegistryItem α)
    (hr : reg.refresh_on_get = true)
    (hit : reg.get_item k = some item)
    (hexp : item.is_expired now = true)
    (hkeep : (reg.remove k).get_item k = some item1)
    (httl : optTruthy item1.ttl = true) :
    ((reg.get now k).1 = some item1.value) ∧
    (((reg.get now k).2).get_item k = some (item1.refresh_expiry now)) ∧
    ((item1.refresh_expiry now).expiration_time = some (now + item1.ttl.getD 0)) ∧
    ((item1.refresh_expiry now).is_expired now = false) := by
  have hr1 : (reg.remove k).refresh_on_get = true := by
    rw [Registry.remove, Strategy.remove_refresh_on_get]; exact hr
  obtain ⟨t, ht, ht0⟩ : ∃ t, item1.ttl = some t ∧ t ≠ 0 := by
    cases h : item1.ttl with
    | none => rw [h] at httl; simp [optTruthy] at httl
    | some t =>
      refine ⟨t, rfl, ?_⟩
      rw [h] at httl
      simpa [optTruthy] using httl
  have hlk : dictLookup reg.items k = some item := by
    simpa [Registry.get_item] using hit
  have hlk1 : dictLookup (reg.remove k).items k = some item1 := by
    simpa [Registry.get_item] using hkeep
  refine ⟨?_, ?_, ?_, ?_⟩
  · simp [Registry.get, hit, hexp, hkeep, hr1]
  · simp [Registry.get, Registry.get_item, hlk, hlk1, hexp, hr1,
      dictLookup_dictSet_self]
  · simp [RegistryItem.refresh_expiry, httl]
  · simp [RegistryItem.refresh_expiry, httl, RegistryItem.is_expired, ht,
      optTruthy, ht0]

/-- Expired item with an always-failing close callback, for the C10 witness. -/
def c10Item : RegistryItem Nat :=
  { value := 7, ttl := some 1, expiration_time := some 1,
    close_callback := some (fun _ => false), close_calls := 0 }

/-- The same item after the two failed close invocations of the removal
attempt made by get. -/
def c10Item1 : RegistryItem Nat :=
  { value := 7, ttl := some 1, expiration_time := some 1,
    close_callback := some (fun _ => false), close_calls := 2 }

/-- Registry with refresh_on_get = true holding c10Item under key 0. -/
def c10Reg : Registry Nat :=
  { items := [(0, c10Item)]
    refresh_on_get := true
    cleanup_interval := none
    remove_item_strategy := defaultStrategy }

/-- Witness for claim C10 at a concrete registry, key and clock value. -/
theorem get_refreshes_retained_expired_item_witness :
    (c10Reg.refresh_on_get = true) ∧
    (c10Reg.get_item 0 = some c10Item) ∧
    (c10Item.is_expired 5 = true) ∧
    ((c10Reg.remove 0).get_item 0 = some c10Item1) ∧
    (optTruthy c10Item1.ttl = true) ∧
    ((c10Reg.get 5 0).1 = some c10Item1.value) ∧
    (((c10Reg.get 5 0).2).get_item 0 = some (c10Item1.refresh_expiry 5)) ∧
    ((c10Item1.refresh_expiry 5).expiration_time = some (5 + c10Item1.ttl.getD 0)) ∧
    ((c10Item1.refresh_expiry 5).is_expired 5 = false) := by
  have h := get_refreshes_retained_expired_item c10Reg 5 0 c10Item c10Item1
    rfl rfl rfl rfl rfl
  exact ⟨rfl, rfl, rfl, rfl, rfl, h.1, h.2.1, h.2.2.1, h.2.2.2⟩

end Apitoolbox
